import Mathlib

/-!
Shallow embedding of `firebase_client.py` — the state-persistence shim of the
autonomous adaptive trading engine.  The Python module defines a `TradeRecord`
dataclass with a `to_dict` serializer and a `FirebaseStateManager` that, at
construction time, selects a remote Firestore backend or a local JSON-file
fallback and exposes three operations: `save_trade`, `save_portfolio_state`
and `get_recent_trades`.

Modelling decisions:
* Python values carried through dictionaries and JSON files are embedded as
  the inductive `PyVal`.  Python `float`s are carried opaquely (constructor
  `PyVal.float` over an `Int` code) because the code performs no arithmetic
  on them; `datetime` objects are abstract ticks (`PyVal.time` over `Nat`).
* Python dictionaries are association lists with first-occurrence update
  semantics (`dictSet`); the filesystem is an association list from paths to
  parsed JSON root values.
* Exceptions are `Except String`; the outcomes of the opaque external
  collaborators (Firestore add/set/query, `os.makedirs`, the file write) are
  supplied by an environment `Env`, so that theorems quantify over every
  possible success/failure behaviour of the outside world.
* The source file in the repository is truncated: it ends in the middle of
  `_save_to_local_file` (at `existing.append(data`), and
  `_load_from_local_file` is missing entirely.  The missing parts are
  modelled from the spec and marked as such in their doc comments.
-/

/-- Embedded Python values: `None`, booleans, ints, opaque floats (the code
never computes with them, so they are carried by an integer code), strings,
abstract `datetime` ticks, lists, and dictionaries as association lists. -/
inductive PyVal : Type where
  | none : PyVal
  | bool : Bool → PyVal
  | int : Int → PyVal
  | float : Int → PyVal
  | str : String → PyVal
  | time : Nat → PyVal
  | list : List PyVal → PyVal
  | dict : List (String × PyVal) → PyVal

/-- A Python dictionary as an association list of string keys. -/
abbrev PyDict : Type := List (String × PyVal)

/-- Python dictionary assignment `d[k] = v`: overwrite the first binding of
`k` in place, or append a new binding at the end (insertion order). -/
def dictSet : PyDict → String → PyVal → PyDict
  | [], k, v => [(k, v)]
  | (k0, v0) :: rest, k, v =>
    if k = k0 then (k, v) :: rest else (k0, v0) :: dictSet rest k v

/-- `TradeRecord` dataclass: nine fields in declaration order; `metadata`
defaults to Python `None`, embedded as `Option`. -/
structure TradeRecord : Type where
  symbol : String
  action : String
  price : Int
  quantity : Int
  timestamp : Nat
  strategy : String
  confidence : Int
  portfolio_value : Int
  metadata : Option PyDict

/-- `dataclasses.asdict(self)`: the nine fields in declaration order, a
`None` metadata serialized as `None`. -/
def TradeRecord.asdict (t : TradeRecord) : PyDict :=
  [ ("symbol", PyVal.str t.symbol)
  , ("action", PyVal.str t.action)
  , ("price", PyVal.float t.price)
  , ("quantity", PyVal.float t.quantity)
  , ("timestamp", PyVal.time t.timestamp)
  , ("strategy", PyVal.str t.strategy)
  , ("confidence", PyVal.float t.confidence)
  , ("portfolio_value", PyVal.float t.portfolio_value)
  , ("metadata", match t.metadata with
      | Option.none => PyVal.none
      | Option.some m => PyVal.dict m) ]

/-- Python `self.metadata or` the empty dict literal: `None` (and the
equally falsy empty dict) becomes the empty dict, anything else is kept. -/
def pyOrEmpty : Option PyDict → PyDict
  | Option.none => []
  | Option.some m => m

/-- The full `TradeRecord.to_dict` method call: `data = asdict(self)`, then
`data[timestamp] = self.timestamp` and `data[metadata] = self.metadata or`
the empty dict literal, returning `data` together with `self` as it stands
after the call (the body assigns only into the fresh local `data`, never
into `self`). -/
def TradeRecord.to_dict_run (t : TradeRecord) : PyDict × TradeRecord :=
  let data := t.asdict
  let data := dictSet data "timestamp" (PyVal.time t.timestamp)
  let data := dictSet data "metadata" (PyVal.dict (pyOrEmpty t.metadata))
  (data, t)

/-- The mapping returned by `TradeRecord.to_dict`. -/
def TradeRecord.to_dict (t : TradeRecord) : PyDict :=
  (t.to_dict_run).1

/-- The manager's attributes: the Firestore handle `_db` (opaque, so carried
as `Option Unit`), the fallback path prefix, and the initialized flag. -/
structure FirebaseStateManager : Type where
  db : Option Unit
  fallback_path : String
  initialized : Bool

/-- The world the manager runs against: the filesystem (path to parsed JSON
root value), the current `datetime.now()` tick, and the outcomes of every
opaque external step — whether `firebase_admin` imported, whether the
certificate/app/client initialization succeeds, whether `os.makedirs`
succeeds, whether the local JSON write succeeds, and the results of the three
Firestore calls (`collection.add`, `document.set`, the ordered query). -/
structure Env : Type where
  fs : List (String × PyVal)
  now : Nat
  firebaseAvailable : Bool
  certOk : Bool
  mkdirOk : Bool
  writeOk : Bool
  addResult : Except String Unit
  setResult : Except String Unit
  queryResult : Option String → Int → Except String (List PyVal)

/-- `os.path.exists`. -/
def Env.pathExists (env : Env) (p : String) : Bool :=
  (env.fs.lookup p).isSome

/-- `_setup_local_fallback`: `os.makedirs` on the dirname of the fallback
path, or on the current directory when the dirname is empty (fallible), then
`self._initialized = True`.  A `makedirs` failure propagates as an
exception. -/
def FirebaseStateManager.setup_local_fallback (env : Env)
    (m : FirebaseStateManager) : Except String FirebaseStateManager :=
  if env.mkdirOk then Except.ok { m with initialized := true }
  else Except.error "makedirs failed"

/-- Python truthiness of the `credentials_path` argument: `None` and the
empty string are falsy. -/
def cpTruthy : Option String → Bool
  | Option.none => false
  | Option.some s => !(s == "")

/-- `FirebaseStateManager.__init__`: start with `_db = None`,
`_initialized = False`; if the firebase library is available and the
credentials path is truthy and exists, try the remote initialization
(`certOk` is the outcome of the `Certificate`/`initialize_app`/`client`
block), falling back to local mode on failure; otherwise go local directly.
Returns the raised-or-not outcome together with the manager as left by the
constructor body. -/
def FirebaseStateManager.init (env : Env) (credentials_path : Option String)
    (fallback_path : String) : Except String Unit × FirebaseStateManager :=
  let m0 : FirebaseStateManager :=
    { db := Option.none, fallback_path := fallback_path, initialized := false }
  let useRemote : Bool :=
    env.firebaseAvailable && cpTruthy credentials_path &&
      (match credentials_path with
        | Option.some p => env.pathExists p
        | Option.none => false)
  if useRemote then
    if env.certOk then
      (Except.ok (), { m0 with db := Option.some (), initialized := true })
    else
      match m0.setup_local_fallback env with
      | Except.ok m1 => (Except.ok (), m1)
      | Except.error e => (Except.error e, m0)
  else
    match m0.setup_local_fallback env with
    | Except.ok m1 => (Except.ok (), m1)
    | Except.error e => (Except.error e, m0)

/-- The target path built by the local-file helpers: the fallback path,
an underscore, the data type, and the `.json` suffix. -/
def localFilePath (m : FirebaseStateManager) (data_type : String) : String :=
  m.fallback_path ++ "_" ++ data_type ++ ".json"

/-- `_save_to_local_file`: read the file's JSON array when the file exists
(absent file means the empty array; a JSON root that is not an array makes
`existing.append` raise), append the record and write the array back.  The
source file is truncated inside this helper (it ends at
`existing.append(data`); the write-back and failure behaviour are
Modelled from the spec: section 4.3 save-append writes the full array back,
and section 7 has every per-operation failure caught only at the operation
boundary, so helper failures propagate as exceptions. -/
def FirebaseStateManager.save_to_local_file (env : Env)
    (m : FirebaseStateManager) (data_type : String) (data : PyVal) :
    Except String Env :=
  let filepath := localFilePath m data_type
  let loaded : Except String (List PyVal) :=
    match env.fs.lookup filepath with
    | Option.none => Except.ok []
    | Option.some (PyVal.list xs) => Except.ok xs
    | Option.some _ => Except.error "existing JSON root is not an array"
  match loaded with
  | Except.error e => Except.error e
  | Except.ok xs =>
    if env.writeOk then
      Except.ok { env with fs := dictSet env.fs filepath (PyVal.list (xs ++ [data])) }
    else Except.error "write failed"

/-- `_load_from_local_file` is entirely missing from the truncated source.
Modelled from the spec: section 4.3 load — read and parse the target file's
JSON array, an absent file giving the empty sequence; a parse failure (root
not an array) propagates to the operation boundary per section 7. -/
def FirebaseStateManager.load_from_local_file (env : Env)
    (m : FirebaseStateManager) (data_type : String) :
    Except String (List PyVal) :=
  match env.fs.lookup (localFilePath m data_type) with
  | Option.none => Except.ok []
  | Option.some (PyVal.list xs) => Except.ok xs
  | Option.some _ => Except.error "existing JSON root is not an array"

/-- The fallible part of `save_trade` (the body of its `try`): serialize and
dispatch on `self._db` — remote `collection.add(data)` or the local-file
append. -/
def FirebaseStateManager.save_trade_body (env : Env)
    (m : FirebaseStateManager) (trade : TradeRecord) : Except String Env :=
  let data := PyVal.dict trade.to_dict
  match m.db with
  | Option.some _ => env.addResult.map (fun _ => env)
  | Option.none => m.save_to_local_file env "trades" data

/-- `save_trade`: precondition check on `_initialized` (log and return
`False`), then the `try` body with the boundary `except` converting any
exception into a `False` return.  Result: the returned boolean and the
world after the call. -/
def FirebaseStateManager.save_trade (env : Env) (m : FirebaseStateManager)
    (trade : TradeRecord) : Bool × Env :=
  if m.initialized = false then (false, env)
  else
    match m.save_trade_body env trade with
    | Except.ok env1 => (true, env1)
    | Except.error _ => (false, env)

/-- The fallible write step of `save_portfolio_state` after the in-place
`last_updated` mutation: remote `document(current).set(portfolio)` or the
local-file append of the mutated snapshot. -/
def FirebaseStateManager.save_portfolio_write (env : Env)
    (m : FirebaseStateManager) (portfolio1 : PyDict) : Except String Env :=
  match m.db with
  | Option.some _ => env.setResult.map (fun _ => env)
  | Option.none => m.save_to_local_file env "portfolio" (PyVal.dict portfolio1)

/-- `save_portfolio_state`: no initialized check; inside the `try` the
caller's mapping gets `portfolio[last_updated] = datetime.now()` (an
in-place mutation that precedes any fallible step, so it persists even when
the write then fails), then the backend write; the boundary `except`
converts exceptions to `False`.  Result: the returned boolean, the caller's
mapping after the call, and the world after the call. -/
def FirebaseStateManager.save_portfolio_state (env : Env)
    (m : FirebaseStateManager) (portfolio : PyDict) :
    Bool × PyDict × Env :=
  let portfolio1 := dictSet portfolio "last_updated" (PyVal.time env.now)
  match m.save_portfolio_write env portfolio1 with
  | Except.ok env1 => (true, portfolio1, env1)
  | Except.error _ => (false, portfolio1, env)

/-- Python truthiness of the `symbol` argument inside `get_recent_trades`
(`if symbol:`): only a non-empty string activates the `where` filter. -/
def symTruthy : Option String → Option String
  | Option.none => Option.none
  | Option.some s => if s = "" then Option.none else Option.some s

/-- Python slice `xs[:limit]` on a list, `limit` a possibly negative int:
non-negative limits take from the front, negative limits drop `|limit|`
elements from the end (clamped at the empty list). -/
def pySliceTo (xs : List PyVal) (limit : Int) : List PyVal :=
  if 0 ≤ limit then xs.take limit.toNat
  else xs.take (xs.length - (-limit).toNat)

/-- The fallible part of `get_recent_trades`: remote mode builds the
timestamp-descending, optionally symbol-filtered, limited query (its result
comes from the opaque backend), local mode loads the whole trades file and
slices `[:limit]` — no filter, no sort. -/
def FirebaseStateManager.get_recent_trades_body (env : Env)
    (m : FirebaseStateManager) (symbol : Option String) (limit : Int) :
    Except String (List PyVal) :=
  match m.db with
  | Option.some _ => env.queryResult (symTruthy symbol) limit
  | Option.none =>
    (m.load_from_local_file env "trades").map (fun xs => pySliceTo xs limit)

/-- `get_recent_trades`: no initialized check; the boundary `except`
converts any exception into the empty list. -/
def FirebaseStateManager.get_recent_trades (env : Env)
    (m : FirebaseStateManager) (symbol : Option String) (limit : Int) :
    List PyVal :=
  match m.get_recent_trades_body env symbol limit with
  | Except.ok r => r
  | Except.error _ => []

/-- The parsed array a local-mode read/append starts from for a category:
an absent file stands for the empty array, a non-array root for a malformed
file. -/
def localArray (env : Env) (m : FirebaseStateManager) (cat : String) :
    Option (List PyVal) :=
  match env.fs.lookup (localFilePath m cat) with
  | Option.none => Option.some []
  | Option.some (PyVal.list xs) => Option.some xs
  | Option.some _ => Option.none

/-- The parsed trades array of the local trades file. -/
def localTrades (env : Env) (m : FirebaseStateManager) : Option (List PyVal) :=
  localArray env m "trades"

/-- The parsed portfolio array of the local portfolio file. -/
def localPortfolio (env : Env) (m : FirebaseStateManager) : Option (List PyVal) :=
  localArray env m "portfolio"

/-- Repeated `save_trade` calls, threading the world through. -/
def saveTradesList (env : Env) (m : FirebaseStateManager) :
    List TradeRecord → Env
  | [] => env
  | t :: ts => saveTradesList (m.save_trade env t).2 m ts

/-- Remote mode is active: the Firestore handle is set. -/
def remoteActive (m : FirebaseStateManager) : Prop :=
  m.db = Option.some ()

/-- Local-fallback mode is active: initialized with no remote handle. -/
def localActive (m : FirebaseStateManager) : Prop :=
  m.initialized = true ∧ m.db = Option.none

/-! Concrete fixtures used by witnesses and counterexamples. -/

/-- A benign world: empty filesystem, every external step succeeding. -/
def env0 : Env :=
  { fs := []
  , now := 7
  , firebaseAvailable := false
  , certOk := true
  , mkdirOk := true
  , writeOk := true
  , addResult := Except.ok ()
  , setResult := Except.ok ()
  , queryResult := fun _ _ => Except.ok [] }

/-- An initialized local-mode manager. -/
def mLocal : FirebaseStateManager :=
  { db := Option.none, fallback_path := "st", initialized := true }

/-- A manager left un-initialized (the makedirs-failure edge case). -/
def mUninit : FirebaseStateManager :=
  { db := Option.none, fallback_path := "st", initialized := false }

/-- A concrete trade record constructed without metadata. -/
def rec0 : TradeRecord :=
  { symbol := "AAPL", action := "BUY", price := 150, quantity := 10
  , timestamp := 1, strategy := "momentum", confidence := 9
  , portfolio_value := 1000, metadata := Option.none }

/-! Helper lemmas about dictionary update and the local-file helpers. -/

/-- Looking up the key just set finds the new value. -/
theorem dictSet_lookup_self (kvs : PyDict) (k : String) (v : PyVal) :
    (dictSet kvs k v).lookup k = Option.some v := by
  induction kvs with
  | nil => simp [dictSet, List.lookup]
  | cons q rest ih =>
    obtain ⟨k0, v0⟩ := q
    by_cases h : k = k0
    · subst h
      simp [dictSet, List.lookup]
    · have hb : (k == k0) = false := by simp [h]
      simp [dictSet, h, List.lookup, hb, ih]

/-- Looking up any other key is unchanged by the update. -/
theorem dictSet_lookup_ne (kvs : PyDict) (k : String) (v : PyVal)
    (k2 : String) (h : k2 ≠ k) :
    (dictSet kvs k v).lookup k2 = kvs.lookup k2 := by
  have hb : (k2 == k) = false := by simp [h]
  induction kvs with
  | nil => simp [dictSet, List.lookup, hb]
  | cons q rest ih =>
    obtain ⟨k0, v0⟩ := q
    by_cases h0 : k = k0
    · subst h0
      simp [dictSet, List.lookup, hb]
    · by_cases h2 : k2 = k0
      · subst h2
        simp [dictSet, h0, List.lookup]
      · have hb2 : (k2 == k0) = false := by simp [h2]
        simp [dictSet, h0, List.lookup, hb2, ih]

/-- Every binding other than the updated key survives verbatim. -/
theorem dictSet_filter_ne (kvs : PyDict) (k : String) (v : PyVal) :
    (dictSet kvs k v).filter (fun q => !(q.1 == k))
      = kvs.filter (fun q => !(q.1 == k)) := by
  induction kvs with
  | nil => simp [dictSet]
  | cons q rest ih =>
    obtain ⟨k0, v0⟩ := q
    by_cases h : k = k0
    · subst h
      simp [dictSet]
    · have hb : (k0 == k) = false := by simp [Ne.symm h]
      simp [dictSet, h, List.filter, hb, ih]

/-- A readable local array makes the (spec-modelled) load helper succeed
with exactly that array. -/
theorem load_from_local_file_of_array (env : Env) (m : FirebaseStateManager)
    (cat : String) (xs : List PyVal)
    (hx : localArray env m cat = Option.some xs) :
    m.load_from_local_file env cat = Except.ok xs := by
  unfold localArray at hx
  unfold FirebaseStateManager.load_from_local_file
  cases hl : env.fs.lookup (localFilePath m cat) with
  | none =>
    rw [hl] at hx
    simp at hx
    simp [hx]
  | some v =>
    rw [hl] at hx
    cases v <;> simp_all

/-- A readable local array plus a succeeding write make the save-append
helper succeed, the file now holding the array with the record appended. -/
theorem save_to_local_file_ok (env : Env) (m : FirebaseStateManager)
    (cat : String) (d : PyVal) (xs : List PyVal)
    (hw : env.writeOk = true)
    (hx : localArray env m cat = Option.some xs) :
    m.save_to_local_file env cat d = Except.ok
      { env with fs := dictSet env.fs (localFilePath m cat)
                          (PyVal.list (xs ++ [d])) } := by
  unfold localArray at hx
  unfold FirebaseStateManager.save_to_local_file
  cases hl : env.fs.lookup (localFilePath m cat) with
  | none =>
    rw [hl] at hx
    simp at hx
    subst hx
    simp [hl, hw]
  | some v =>
    rw [hl] at hx
    cases v <;> simp_all [hw]

/-- After the helper writes a category file, that category reads back as
the written array. -/
theorem localArray_set_self (env : Env) (m : FirebaseStateManager)
    (cat : String) (ys : List PyVal) :
    localArray { env with fs := dictSet env.fs (localFilePath m cat)
                            (PyVal.list ys) } m cat = Option.some ys := by
  unfold localArray
  simp [dictSet_lookup_self]

/-- One successful local-mode `save_trade`: returns `True` and appends the
serialized record to the trades file, touching nothing else of the world. -/
theorem save_trade_local_ok (env : Env) (m : FirebaseStateManager)
    (t : TradeRecord) (xs : List PyVal)
    (hdb : m.db = Option.none) (hi : m.initialized = true)
    (hw : env.writeOk = true)
    (hx : localArray env m "trades" = Option.some xs) :
    m.save_trade env t = (true,
      { env with fs := dictSet env.fs (localFilePath m "trades")
                    (PyVal.list (xs ++ [PyVal.dict t.to_dict])) }) := by
  have hs := save_to_local_file_ok env m "trades" (PyVal.dict t.to_dict) xs hw hx
  unfold FirebaseStateManager.save_trade FirebaseStateManager.save_trade_body
  simp [hi, hdb, hs]

/-- One successful local-mode `save_portfolio_state`: returns `True`, hands
back the snapshot with `last_updated` stamped, and appends that snapshot to
the portfolio file. -/
theorem save_portfolio_local_ok (env : Env) (m : FirebaseStateManager)
    (p : PyDict) (ys : List PyVal)
    (hdb : m.db = Option.none) (hw : env.writeOk = true)
    (hy : localArray env m "portfolio" = Option.some ys) :
    m.save_portfolio_state env p = (true,
      dictSet p "last_updated" (PyVal.time env.now),
      { env with fs := dictSet env.fs (localFilePath m "portfolio")
                    (PyVal.list (ys ++
                      [PyVal.dict (dictSet p "last_updated"
                        (PyVal.time env.now))])) }) := by
  have hs := save_to_local_file_ok env m "portfolio"
    (PyVal.dict (dictSet p "last_updated" (PyVal.time env.now))) ys hw hy
  unfold FirebaseStateManager.save_portfolio_state
    FirebaseStateManager.save_portfolio_write
  simp [hdb, hs]

/-- Folding `save_trade` over a list of records in a healthy local-mode
world appends their serialized mappings in call order, keeping the write
channel healthy. -/
theorem saveTradesList_local (m : FirebaseStateManager)
    (hdb : m.db = Option.none) (hi : m.initialized = true) :
    ∀ (ts : List TradeRecord) (env : Env) (xs : List PyVal),
      env.writeOk = true → localArray env m "trades" = Option.some xs →
      localArray (saveTradesList env m ts) m "trades"
          = Option.some (xs ++ ts.map (fun u => PyVal.dict u.to_dict)) ∧
        (saveTradesList env m ts).writeOk = true := by
  intro ts
  induction ts with
  | nil =>
    intro env xs hw hx
    simpa [saveTradesList] using ⟨hx, hw⟩
  | cons t ts ih =>
    intro env xs hw hx
    have hstep := save_trade_local_ok env m t xs hdb hi hw hx
    have henv1 : localArray (m.save_trade env t).2 m "trades"
        = Option.some (xs ++ [PyVal.dict t.to_dict]) := by
      rw [hstep]
      exact localArray_set_self env m "trades" (xs ++ [PyVal.dict t.to_dict])
    have hw1 : (m.save_trade env t).2.writeOk = true := by
      rw [hstep]
      exact hw
    have := ih (m.save_trade env t).2 (xs ++ [PyVal.dict t.to_dict]) hw1 henv1
    simpa [saveTradesList, List.append_assoc] using this

/-! Claim theorems. -/

/-- C4: for every trade record, including one constructed without metadata,
`to_dict` returns a mapping with all nine fields in order, the `metadata`
key always present — bound to the serialized metadata, hence to the empty
mapping when the record was constructed with none; the method is a pure
total function of the record. -/
theorem claim_C4 (t : TradeRecord) :
    (t.to_dict).map Prod.fst
        = ["symbol", "action", "price", "quantity", "timestamp", "strategy",
           "confidence", "portfolio_value", "metadata"] ∧
      (t.to_dict).lookup "metadata"
        = Option.some (PyVal.dict (pyOrEmpty t.metadata)) ∧
      (t.metadata = Option.none →
        (t.to_dict).lookup "metadata" = Option.some (PyVal.dict [])) := by
  refine ⟨rfl, rfl, ?_⟩
  intro h
  have h2 : (t.to_dict).lookup "metadata"
      = Option.some (PyVal.dict (pyOrEmpty t.metadata)) := rfl
  rw [h2, h]
  rfl

/-- C4 witness: a record built without metadata evaluates to a mapping whose
`metadata` key holds the empty mapping. -/
theorem claim_C4_witness :
    (rec0.to_dict).lookup "metadata" = Option.some (PyVal.dict []) :=
  (claim_C4 rec0).2.2 rfl

/-- C9: the `to_dict` call leaves the record itself untouched — the record
after the call is the record before it, a record constructed without
metadata still has no metadata afterwards, and a second call on the
post-call record returns the same mapping. -/
theorem claim_C9 (t : TradeRecord) :
    (t.to_dict_run).2 = t ∧
      (t.metadata = Option.none → ((t.to_dict_run).2).metadata = Option.none) ∧
      (((t.to_dict_run).2).to_dict_run).1 = (t.to_dict_run).1 := by
  refine ⟨rfl, ?_, rfl⟩
  intro h
  exact h

/-- C9 witness: the concrete metadata-free record is unchanged by the call. -/
theorem claim_C9_witness :
    ((rec0.to_dict_run).2).metadata = Option.none :=
  (claim_C9 rec0).2.1 rfl

/-- C6: `save_portfolio_state` rewrites the caller's snapshot in place,
binding exactly the `last_updated` key to the current timestamp: after the
call the snapshot's `last_updated` is the current time, every other key
reads as before, and every binding other than `last_updated` survives
verbatim. -/
theorem claim_C6 (env : Env) (m : FirebaseStateManager) (portfolio : PyDict) :
    ((m.save_portfolio_state env portfolio).2.1).lookup "last_updated"
        = Option.some (PyVal.time env.now) ∧
      (∀ k : String, k ≠ "last_updated" →
        ((m.save_portfolio_state env portfolio).2.1).lookup k
          = portfolio.lookup k) ∧
      ((m.save_portfolio_state env portfolio).2.1).filter
          (fun q => !(q.1 == "last_updated"))
        = portfolio.filter (fun q => !(q.1 == "last_updated")) := by
  have hmut : (m.save_portfolio_state env portfolio).2.1
      = dictSet portfolio "last_updated" (PyVal.time env.now) := by
    unfold FirebaseStateManager.save_portfolio_state
    cases h : m.save_portfolio_write env
        (dictSet portfolio "last_updated" (PyVal.time env.now)) <;> simp [h]
  rw [hmut]
  exact ⟨dictSet_lookup_self portfolio "last_updated" (PyVal.time env.now),
    fun k hk => dictSet_lookup_ne portfolio "last_updated"
      (PyVal.time env.now) k hk,
    dictSet_filter_ne portfolio "last_updated" (PyVal.time env.now)⟩

/-- C6 witness: on a concrete snapshot the stamped time appears and an
unrelated key keeps its value. -/
theorem claim_C6_witness :
    ((mLocal.save_portfolio_state env0
        [("cash", PyVal.int 5)]).2.1).lookup "last_updated"
        = Option.some (PyVal.time 7) ∧
      ((mLocal.save_portfolio_state env0
        [("cash", PyVal.int 5)]).2.1).lookup "cash"
        = Option.some (PyVal.int 5) := by
  refine ⟨(claim_C6 env0 mLocal [("cash", PyVal.int 5)]).1, ?_⟩
  have h := (claim_C6 env0 mLocal [("cash", PyVal.int 5)]).2.1 "cash"
    (by decide)
  rw [h]
  rfl

/-- The constructor result when the remote branch is taken and remote
initialization succeeds. -/
theorem init_remote_result (env : Env) (cp : Option String) (fp : String)
    (hr : (env.firebaseAvailable && cpTruthy cp &&
      (match cp with
        | Option.some p => env.pathExists p
        | Option.none => false)) = true)
    (hc : env.certOk = true) :
    FirebaseStateManager.init env cp fp = (Except.ok (),
      { db := Option.some (), fallback_path := fp, initialized := true }) := by
  unfold FirebaseStateManager.init
  simp [hr, hc]

/-- The constructor result when it reaches the local fallback — because the
remote branch is not taken or remote initialization failed: local mode when
`makedirs` succeeds, a propagated exception over an un-initialized manager
when it does not. -/
theorem init_fallback_result (env : Env) (cp : Option String) (fp : String)
    (h : (env.firebaseAvailable && cpTruthy cp &&
        (match cp with
          | Option.some p => env.pathExists p
          | Option.none => false)) = false ∨ env.certOk = false) :
    FirebaseStateManager.init env cp fp =
      if env.mkdirOk then (Except.ok (),
        { db := Option.none, fallback_path := fp, initialized := true })
      else (Except.error "makedirs failed",
        { db := Option.none, fallback_path := fp, initialized := false }) := by
  unfold FirebaseStateManager.init FirebaseStateManager.setup_local_fallback
  by_cases hm : env.mkdirOk = true
  · rcases h with h | h
    · simp [h, hm]
    · by_cases hr : (env.firebaseAvailable && cpTruthy cp &&
          (match cp with
            | Option.some p => env.pathExists p
            | Option.none => false)) = true
      · simp [hr, h, hm]
      · simp [hr, hm]
  · have hm2 : env.mkdirOk = false := by simpa using hm
    rcases h with h | h
    · simp [h, hm2]
    · by_cases hr : (env.firebaseAvailable && cpTruthy cp &&
          (match cp with
            | Option.some p => env.pathExists p
            | Option.none => false)) = true
      · simp [hr, h, hm2]
      · simp [hr, hm2]

/-- C2: on a writable filesystem the constructor never raises — for every
credentials path (absent, non-existent, empty or failing) it terminates with
the initialized flag set, in remote or local-fallback mode; a missing or
non-existent credentials path, and likewise a failing remote
initialization, always yield local mode. -/
theorem claim_C2 (env : Env) (cp : Option String) (fp : String)
    (hfs : env.mkdirOk = true) :
    (FirebaseStateManager.init env cp fp).1 = Except.ok () ∧
      ((FirebaseStateManager.init env cp fp).2).initialized = true ∧
      (remoteActive (FirebaseStateManager.init env cp fp).2 ∨
        localActive (FirebaseStateManager.init env cp fp).2) ∧
      ((cp = Option.none ∨ ∃ p, cp = Option.some p ∧ env.pathExists p = false) →
        ((FirebaseStateManager.init env cp fp).2).db = Option.none) ∧
      (env.certOk = false →
        ((FirebaseStateManager.init env cp fp).2).db = Option.none) := by
  by_cases hr : (env.firebaseAvailable && cpTruthy cp &&
      (match cp with
        | Option.some p => env.pathExists p
        | Option.none => false)) = true
  · by_cases hc : env.certOk = true
    · have hres := init_remote_result env cp fp hr hc
      rw [hres]
      refine ⟨rfl, rfl, Or.inl rfl, ?_, ?_⟩
      · intro hcp
        exfalso
        simp only [Bool.and_eq_true] at hr
        rcases hcp with h1 | ⟨p, hp, hpe⟩
        · rw [h1] at hr
          simpa [cpTruthy] using hr.1.2
        · rw [hp] at hr
          simp [hpe] at hr
      · intro h5
        rw [h5] at hc
        exact absurd hc (by simp)
    · have hc2 : env.certOk = false := Bool.eq_false_iff.mpr hc
      have hres := init_fallback_result env cp fp (Or.inr hc2)
      rw [if_pos hfs] at hres
      rw [hres]
      exact ⟨rfl, rfl, Or.inr ⟨rfl, rfl⟩, fun _ => rfl, fun _ => rfl⟩
  · have hr2 := Bool.eq_false_iff.mpr hr
    have hres := init_fallback_result env cp fp (Or.inl hr2)
    rw [if_pos hfs] at hres
    rw [hres]
    exact ⟨rfl, rfl, Or.inr ⟨rfl, rfl⟩, fun _ => rfl, fun _ => rfl⟩

/-- C2 witness: with a writable filesystem and a missing credentials path
the constructor returns normally in local mode. -/
theorem claim_C2_witness :
    (FirebaseStateManager.init env0 Option.none "st").1 = Except.ok () ∧
      ((FirebaseStateManager.init env0 Option.none "st").2).db
          = Option.none := by
  have h := claim_C2 env0 Option.none "st" rfl
  exact ⟨h.1, h.2.2.2.1 (Or.inl rfl)⟩

/-- C8: whenever the constructor returns normally, exactly one of the two
modes is active — remote handle set, or local fallback — never both and
never neither; when it instead propagates the directory-creation failure,
the manager is left un-initialized with no remote handle. -/
theorem claim_C8 (env : Env) (cp : Option String) (fp : String) :
    ((FirebaseStateManager.init env cp fp).1 = Except.ok () →
        (remoteActive (FirebaseStateManager.init env cp fp).2 ∧
            ¬ localActive (FirebaseStateManager.init env cp fp).2) ∨
          (localActive (FirebaseStateManager.init env cp fp).2 ∧
            ¬ remoteActive (FirebaseStateManager.init env cp fp).2)) ∧
      (∀ e, (FirebaseStateManager.init env cp fp).1 = Except.error e →
        ((FirebaseStateManager.init env cp fp).2).initialized = false ∧
          ((FirebaseStateManager.init env cp fp).2).db = Option.none) := by
  by_cases hr : (env.firebaseAvailable && cpTruthy cp &&
      (match cp with
        | Option.some p => env.pathExists p
        | Option.none => false)) = true
  · by_cases hc : env.certOk = true
    · have hres := init_remote_result env cp fp hr hc
      rw [hres]
      constructor
      · intro _
        left
        exact ⟨rfl, fun hl => by simp [localActive] at hl⟩
      · intro e he
        exact absurd he (by simp)
    · have hc2 : env.certOk = false := Bool.eq_false_iff.mpr hc
      have hres := init_fallback_result env cp fp (Or.inr hc2)
      by_cases hm : env.mkdirOk = true
      · rw [if_pos hm] at hres
        rw [hres]
        constructor
        · intro _
          right
          exact ⟨⟨rfl, rfl⟩, fun hrm => by simp [remoteActive] at hrm⟩
        · intro e he
          exact absurd he (by simp)
      · rw [if_neg hm] at hres
        rw [hres]
        constructor
        · intro h
          exact absurd h (by simp)
        · intro e _
          exact ⟨rfl, rfl⟩
  · have hr2 := Bool.eq_false_iff.mpr hr
    have hres := init_fallback_result env cp fp (Or.inl hr2)
    by_cases hm : env.mkdirOk = true
    · rw [if_pos hm] at hres
      rw [hres]
      constructor
      · intro _
        right
        exact ⟨⟨rfl, rfl⟩, fun hrm => by simp [remoteActive] at hrm⟩
      · intro e he
        exact absurd he (by simp)
    · rw [if_neg hm] at hres
      rw [hres]
      constructor
      · intro h
        exact absurd h (by simp)
      · intro e _
        exact ⟨rfl, rfl⟩

/-- C8 witness: on the concrete benign world the constructor returns
normally and local mode is the one active mode. -/
theorem claim_C8_witness :
    (localActive (FirebaseStateManager.init env0 Option.none "st").2 ∧
        ¬ remoteActive (FirebaseStateManager.init env0 Option.none "st").2) := by
  have h := (claim_C8 env0 Option.none "st").1 rfl
  rcases h with ⟨hrm, _⟩ | h2
  · exact Option.noConfusion hrm
  · exact h2

/-- A world whose trades file holds a malformed JSON root (not an array),
so a local read or append raises inside the operation. -/
def envCorrupt : Env :=
  { env0 with fs := [("st_trades.json", PyVal.int 0)] }

/-- A world whose trades file already stores five entries. -/
def env5 : Env :=
  { env0 with fs := [("st_trades.json", PyVal.list
      [PyVal.int 1, PyVal.int 2, PyVal.int 3, PyVal.int 4, PyVal.int 5])] }

/-- C1 counterexample: on an un-initialized manager `save_portfolio_state`
does not return false — it has no precondition check, performs the backend
write (the filesystem gains the portfolio file) and returns true. -/
theorem claim_C1_counterexample :
    (mUninit.save_portfolio_state env0 []).1 = true ∧
      ((mUninit.save_portfolio_state env0 []).2.2).fs.length = 1 ∧
      env0.fs.length = 0 :=
  ⟨rfl, rfl, rfl⟩

/-- C1 amended: only `save_trade` checks the initialized flag — on an
un-initialized manager it logs, returns false and leaves the world
untouched; `save_portfolio_state` and `get_recent_trades` have no such
check and behave exactly as they would on an initialized manager. -/
theorem claim_C1_amended (env : Env) (m : FirebaseStateManager)
    (t : TradeRecord) (p : PyDict) (s : Option String) (k : Int)
    (h : m.initialized = false) :
    m.save_trade env t = (false, env) ∧
      m.save_portfolio_state env p
        = FirebaseStateManager.save_portfolio_state env
            { m with initialized := true } p ∧
      m.get_recent_trades env s k
        = FirebaseStateManager.get_recent_trades env
            { m with initialized := true } s k := by
  obtain ⟨d, f, i⟩ := m
  refine ⟨?_, rfl, rfl⟩
  simp only at h
  simp [FirebaseStateManager.save_trade, h]

/-- C1 witness: the concrete un-initialized manager refuses a trade save
with a false return and an unchanged world. -/
theorem claim_C1_witness :
    mUninit.save_trade env0 rec0 = (false, env0) :=
  (claim_C1_amended env0 mUninit rec0 [] Option.none 5 rfl).1

/-- C3: no exception crosses an operation boundary — `save_trade` returns
false exactly when the manager is un-initialized or its try-body raised
(and true otherwise); an exception inside the `save_portfolio_state` write
becomes a false return; an exception inside the `get_recent_trades` body
becomes the empty list. -/
theorem claim_C3 (env : Env) (m : FirebaseStateManager) (t : TradeRecord)
    (p : PyDict) (s : Option String) (k : Int) :
    ((m.save_trade env t).1 = false ↔
        (m.initialized = false ∨
          ∃ e, m.save_trade_body env t = Except.error e)) ∧
      ((∃ e, m.save_portfolio_write env
          (dictSet p "last_updated" (PyVal.time env.now)) = Except.error e) →
        (m.save_portfolio_state env p).1 = false) ∧
      ((∃ e, m.get_recent_trades_body env s k = Except.error e) →
        m.get_recent_trades env s k = []) := by
  refine ⟨?_, ?_, ?_⟩
  · by_cases hi : m.initialized = false
    · simp [FirebaseStateManager.save_trade, hi]
    · have hi2 : m.initialized = true := by
        cases hx : m.initialized
        · exact absurd hx hi
        · rfl
      cases hb : m.save_trade_body env t with
      | ok env1 => simp [FirebaseStateManager.save_trade, hi2, hb]
      | error e => simp [FirebaseStateManager.save_trade, hi2, hb]
  · rintro ⟨e, he⟩
    simp [FirebaseStateManager.save_portfolio_state, he]
  · rintro ⟨e, he⟩
    simp [FirebaseStateManager.get_recent_trades, he]

/-- C3 witness: a malformed local trades file makes the read body raise and
`get_recent_trades` convert it to the empty list. -/
theorem claim_C3_witness :
    mLocal.get_recent_trades envCorrupt Option.none 5 = [] :=
  (claim_C3 envCorrupt mLocal rec0 [] Option.none 5).2.2
    ⟨"existing JSON root is not an array", rfl⟩

/-- C5 counterexample: with the five-entry trades file and limit `-1`,
local-mode `get_recent_trades` returns four entries — more than the limit
allows, so the claim's every-limit bound fails at a negative limit. -/
theorem claim_C5_counterexample :
    ((mLocal.get_recent_trades env5 (Option.some "AAPL") (-1)).length : Int)
        = 4 ∧
      ¬ ((4 : Int) ≤ (-1 : Int)) := by
  constructor
  · rfl
  · decide

/-- C5 amended: in local mode, for every stored trades array, every symbol
argument and every non-negative limit `k`, `get_recent_trades` returns the
first `k` entries of the stored array in stored order — no symbol filter,
no descending sort.  (For negative limits the slice keeps all but the last
entries instead; see the companion claim on negative limits.) -/
theorem claim_C5_amended (env : Env) (m : FirebaseStateManager)
    (s : Option String) (k : Int) (xs : List PyVal)
    (hdb : m.db = Option.none)
    (hx : localTrades env m = Option.some xs)
    (hk : 0 ≤ k) :
    m.get_recent_trades env s k = xs.take k.toNat := by
  have hload := load_from_local_file_of_array env m "trades" xs hx
  unfold FirebaseStateManager.get_recent_trades
    FirebaseStateManager.get_recent_trades_body
  simp [hdb, hload, pySliceTo, hk, Except.map]

/-- Three AAPL trade records and two MSFT trade records. -/
def tA1 : TradeRecord :=
  { symbol := "AAPL", action := "BUY", price := 1, quantity := 1
  , timestamp := 1, strategy := "s", confidence := 1, portfolio_value := 1
  , metadata := Option.none }

/-- Second AAPL record. -/
def tA2 : TradeRecord := { tA1 with timestamp := 2 }

/-- Third AAPL record. -/
def tA3 : TradeRecord := { tA1 with timestamp := 3 }

/-- First MSFT record. -/
def tM1 : TradeRecord := { tA1 with symbol := "MSFT", timestamp := 4 }

/-- Second MSFT record. -/
def tM2 : TradeRecord := { tA1 with symbol := "MSFT", timestamp := 5 }

/-- The world after saving the three AAPL and two MSFT trades in local
mode. -/
def envAfter5 : Env :=
  saveTradesList env0 mLocal [tA1, tA2, tA3, tM1, tM2]

/-- C5 witness: after saving three AAPL and two MSFT trades, a query for
AAPL with limit 10 returns all five stored entries in append order — the
symbol filter does not apply in local mode. -/
theorem claim_C5_witness :
    mLocal.get_recent_trades envAfter5 (Option.some "AAPL") 10
      = [tA1, tA2, tA3, tM1, tM2].map (fun u => PyVal.dict u.to_dict) := by
  have hx5 : localTrades envAfter5 mLocal
      = Option.some ([tA1, tA2, tA3, tM1, tM2].map
          (fun u => PyVal.dict u.to_dict)) := by rfl
  have h := claim_C5_amended envAfter5 mLocal (Option.some "AAPL") 10
    ([tA1, tA2, tA3, tM1, tM2].map (fun u => PyVal.dict u.to_dict))
    rfl hx5 (by decide)
  exact h.trans rfl

/-- C10: in local mode with a readable stored array, limit 0 returns the
empty sequence, and a negative limit `k` over an array longer than `-k`
returns all stored entries except the last `-k` — tail-truncation slice
semantics, which can exceed `-k` entries. -/
theorem claim_C10 (env : Env) (m : FirebaseStateManager) (s : Option String)
    (xs : List PyVal) (k : Int)
    (hdb : m.db = Option.none)
    (hx : localTrades env m = Option.some xs) :
    m.get_recent_trades env s 0 = [] ∧
      (k < 0 → (-k).toNat < xs.length →
        m.get_recent_trades env s k = xs.take (xs.length - (-k).toNat)) := by
  have hload := load_from_local_file_of_array env m "trades" xs hx
  constructor
  · unfold FirebaseStateManager.get_recent_trades
      FirebaseStateManager.get_recent_trades_body
    simp [hdb, hload, pySliceTo, Except.map]
  · intro hk _
    have hk2 : ¬ (0 ≤ k) := by omega
    unfold FirebaseStateManager.get_recent_trades
      FirebaseStateManager.get_recent_trades_body
    simp [hdb, hload, pySliceTo, hk2, Except.map]

/-- C10 witness: on the five-entry file, limit `-1` returns the first four
entries — four entries, exceeding the magnitude of the limit. -/
theorem claim_C10_witness :
    mLocal.get_recent_trades env5 (Option.some "AAPL") (-1)
      = [PyVal.int 1, PyVal.int 2, PyVal.int 3, PyVal.int 4] := by
  have h := (claim_C10 env5 mLocal (Option.some "AAPL")
      [PyVal.int 1, PyVal.int 2, PyVal.int 3, PyVal.int 4, PyVal.int 5]
      (-1) rfl rfl).2 (by decide) (by decide)
  exact h.trans rfl

/-- One local-mode `save_portfolio_state` in a healthy world: true return,
write channel and clock untouched, portfolio file extended by the stamped
snapshot. -/
theorem save_portfolio_state_step (env : Env) (m : FirebaseStateManager)
    (p : PyDict) (ys : List PyVal)
    (hdb : m.db = Option.none) (hw : env.writeOk = true)
    (hy : localArray env m "portfolio" = Option.some ys) :
    (m.save_portfolio_state env p).1 = true ∧
      ((m.save_portfolio_state env p).2.2).writeOk = true ∧
      ((m.save_portfolio_state env p).2.2).now = env.now ∧
      localArray (m.save_portfolio_state env p).2.2 m "portfolio"
        = Option.some (ys ++
            [PyVal.dict (dictSet p "last_updated" (PyVal.time env.now))]) := by
  rw [save_portfolio_local_ok env m p ys hdb hw hy]
  exact ⟨rfl, hw, rfl,
    localArray_set_self env m "portfolio"
      (ys ++ [PyVal.dict (dictSet p "last_updated" (PyVal.time env.now))])⟩

/-- C7: in a healthy local-mode world, one `save_trade` returns true and
appends exactly the serialized record to the trades file; a whole list of
saves appends their serialized mappings in call order; and two
`save_portfolio_state` calls both return true and leave the portfolio file
with both stamped snapshots appended — append, never replace. -/
theorem claim_C7 (env : Env) (m : FirebaseStateManager) (t : TradeRecord)
    (ts : List TradeRecord) (p1 p2 : PyDict) (xs ys : List PyVal)
    (hdb : m.db = Option.none) (hi : m.initialized = true)
    (hw : env.writeOk = true)
    (hx : localTrades env m = Option.some xs)
    (hy : localPortfolio env m = Option.some ys) :
    ((m.save_trade env t).1 = true ∧
        localTrades (m.save_trade env t).2 m
          = Option.some (xs ++ [PyVal.dict t.to_dict])) ∧
      localTrades (saveTradesList env m ts) m
        = Option.some (xs ++ ts.map (fun u => PyVal.dict u.to_dict)) ∧
      ((m.save_portfolio_state env p1).1 = true ∧
        (FirebaseStateManager.save_portfolio_state
            (m.save_portfolio_state env p1).2.2 m p2).1 = true ∧
        localPortfolio (FirebaseStateManager.save_portfolio_state
            (m.save_portfolio_state env p1).2.2 m p2).2.2 m
          = Option.some (ys ++
              [PyVal.dict (dictSet p1 "last_updated" (PyVal.time env.now)),
                PyVal.dict (dictSet p2 "last_updated"
                  (PyVal.time env.now))])) := by
  have hx2 : localArray env m "trades" = Option.some xs := hx
  have hy2 : localArray env m "portfolio" = Option.some ys := hy
  refine ⟨?_, ?_, ?_⟩
  · have hstep := save_trade_local_ok env m t xs hdb hi hw hx2
    rw [hstep]
    exact ⟨rfl,
      localArray_set_self env m "trades" (xs ++ [PyVal.dict t.to_dict])⟩
  · exact (saveTradesList_local m hdb hi ts env xs hw hx2).1
  · obtain ⟨h1, hw1, hn1, ha1⟩ :=
      save_portfolio_state_step env m p1 ys hdb hw hy2
    obtain ⟨h2, _, _, ha2⟩ :=
      save_portfolio_state_step (m.save_portfolio_state env p1).2.2 m p2
        (ys ++ [PyVal.dict (dictSet p1 "last_updated" (PyVal.time env.now))])
        hdb hw1 ha1
    rw [hn1] at ha2
    refine ⟨h1, h2, ?_⟩
    unfold localPortfolio
    rw [ha2]
    simp

/-- C7 witness: starting from the empty world, saving two concrete records
leaves the trades file holding exactly their two serialized mappings in
call order. -/
theorem claim_C7_witness :
    localTrades (saveTradesList env0 mLocal [tA1, tM1]) mLocal
      = Option.some [PyVal.dict tA1.to_dict, PyVal.dict tM1.to_dict] := by
  have h := claim_C7 env0 mLocal tA1 [tA1, tM1] [] [] [] []
    rfl rfl rfl rfl rfl
  exact h.2.1.trans rfl
